import Mathlib

/-!
Verification of the peargent orchestration core.

The repository source tree contains the built-in tool module
(peargent/tools/http_tools.py), the test suite, and example scripts, but the
orchestration core itself (peargent._core: Pool, Router, State, and the Tool
base class) is not part of the tree.  Definitions for that core are therefore
modelled from the specification (spec.md §3, §4.1, §4.2, §4.3), and are kept
consistent with the behavior pinned by src/tests/test_pool.py and
src/tests/test_http_tools.py.  The URL-validation logic of
peargent/tools/http_tools.py is embedded directly from the source.
-/

namespace Peargent

/-- Message role.  The orchestration core only appends user and assistant
messages (spec §3). -/
inductive Role where
  | user
  | assistant
deriving DecidableEq

/-- Modelled from the spec: a conversation Message
{role, content, agent: optional agent name} (spec §3).  The timestamp field is
omitted: wall-clock time is outside the embedding, and no claim concerns it. -/
structure Message where
  role : Role
  content : String
  agent : Option String
deriving DecidableEq

/-- Modelled from the spec: the shared mutable State, with its ordered message
history and its string key/value store (spec §3).  The agent-registry
reference held by State is kept by the Pool in this model, and values in the
key/value store are modelled as strings. -/
structure State where
  history : List Message
  kv : List (String × String)
deriving DecidableEq

/-- Modelled from the spec: RouterResult {next_agent_name: optional string};
none means stop (spec §3, pinned by src/tests/test_pool.py usage of
RouterResult(None)). -/
structure RouterResult where
  next_agent_name : Option String
deriving DecidableEq

/-- Modelled from the spec: LastResult {agent, output, tools_used}, the
summary of the most recently completed agent turn (spec §3, pinned by
src/tests/test_pool.py test_last_result_contains_required_fields). -/
structure LastResult where
  agent : String
  output : String
  tools_used : List String
deriving DecidableEq

/-- Modelled from the spec: an Agent binds a unique name to an invocation
returning (output, tools_used) (spec §4.5).  Persona, description, model and
tracing configuration do not affect the orchestration loop and are absorbed
into the opaque run function. -/
structure Agent where
  name : String
  run : String → State → String × List String

/-- Modelled from the spec: the Router decision protocol in its function
shape: (state, call_count, last_result) -> RouterResult (spec §4.2). -/
abbrev Router : Type := State → Nat → Option LastResult → RouterResult

/-- Modelled from the spec: one insertion into the agent registry, with
Python-dict semantics: an existing key keeps its position and its binding is
replaced, a new key is appended (spec §4.1 step 1, last duplicate wins). -/
def insert_agent (reg : List (String × Agent)) (a : Agent) :
    List (String × Agent) :=
  if reg.any (fun p => p.1 == a.name) then
    reg.map (fun p => if p.1 == a.name then (a.name, a) else p)
  else
    reg ++ [(a.name, a)]

/-- Modelled from the spec: populate the registry from the configured agent
list, in order (spec §4.1 step 1). -/
def build_registry (agents : List Agent) : List (String × Agent) :=
  agents.foldl insert_agent []

/-- Registry lookup by agent name. -/
def lookup_agent (reg : List (String × Agent)) (name : String) : Option Agent :=
  (reg.find? (fun p => p.1 == name)).map (fun p => p.2)

/-- The assistant Message appended for one completed agent turn
(spec §4.1 step 5e). -/
def to_assistant_message (lr : LastResult) : Message :=
  { role := Role.assistant, content := lr.output, agent := some lr.agent }

/-- Modelled from the spec: the Pool run loop, steps 5a-5f of §4.1.  The fuel
argument is the number of remaining iterations (max_iter - call_count), so
the loop guard call_count < max_iter is fuel > 0.  Returns the final state,
the ordered trace of completed agent turns, and the routing error message if
the loop aborted on an unknown agent name (spec §4.1 step 5c; the error text
matches the ValueError pinned by src/tests/test_pool.py
test_pool_raises_error_for_unknown_agent). -/
def run_loop (registry : List (String × Agent)) (router : Router) :
    Nat → Nat → Option LastResult → String → State →
    State × List LastResult × Option String
  | 0, _, _, _, state => (state, [], none)
  | Nat.succ fuel, call_count, last_result, current_input, state =>
    match (router state call_count last_result).next_agent_name with
    | none => (state, [], none)
    | some name =>
      match lookup_agent registry name with
      | none => (state, [], some (String.append "unknown agent: " name))
      | some ag =>
        let out := ag.run current_input state
        let lr : LastResult :=
          { agent := name, output := out.1, tools_used := out.2 }
        let state1 : State :=
          { state with history := state.history ++ [to_assistant_message lr] }
        let r := run_loop registry router fuel (call_count + 1) (some lr)
          out.1 state1
        (r.1, lr :: r.2.1, r.2.2)

/-- Outcome of one Pool.run call: the returned value (or the fatal routing
error), the final state, and the trace of completed agent turns. -/
structure RunOutcome where
  result : Except String String
  state : State
  trace : List LastResult

/-- Number of agent turns a run executed. -/
def agent_turns (o : RunOutcome) : Nat :=
  o.trace.length

/-- Modelled from the spec: Pool.run (spec §4.1).  Appends the user Message,
runs the loop with call_count starting at 0, and returns the content of the
last assistant message appended during this call, or the empty string if the
loop body never ran (spec §4.1 steps 3-6). -/
def pool_run (agents : List Agent) (router : Router) (max_iter : Nat)
    (state0 : State) (input : String) : RunOutcome :=
  let registry := build_registry agents
  let user_msg : Message := { role := Role.user, content := input, agent := none }
  let state1 : State := { state0 with history := state0.history ++ [user_msg] }
  let r := run_loop registry router max_iter 0 none input state1
  match r.2.2 with
  | some e => { result := Except.error e, state := r.1, trace := r.2.1 }
  | none =>
    { result := Except.ok (((r.2.1).getLast?).elim "" (fun lr => lr.output))
      state := r.1
      trace := r.2.1 }

/-- Modelled from the spec: the default router installed when a Pool is
constructed without one always returns stop (spec §4.2, pinned by
src/tests/test_pool.py test_pool_default_router_stops_immediately). -/
def default_router : Router :=
  fun _ _ _ => { next_agent_name := none }

/-- Modelled from the spec: router selection at Pool construction; an absent
router falls back to the default router (spec §4.2). -/
def create_pool_router (router : Option Router) : Router :=
  router.getD default_router

/-- Modelled from the spec: the round-robin router over a fixed ordered name
list returns names[call_count mod len(names)] and never stops on a non-empty
list (spec §4.2, pinned by src/tests/test_pool.py
test_pool_with_round_robin_router). -/
def round_robin_router (names : List String) : Router :=
  fun _ call_count _ =>
    { next_agent_name := names.get? (call_count % names.length) }

/-- Modelled from the spec: the Tool on_error policy enum {raise, return_error}
(spec §3, pinned by src/tests/test_http_tools.py test_tool_initialization). -/
inductive OnErrorPolicy where
  | raise
  | return_error
deriving DecidableEq

/-- Modelled from the spec: the retry/backoff/error-policy configuration of a
Tool (spec §3).  Seconds are modelled as rationals.  The declared parameter
schema and the call_function reference are not part of the retry engine and
are omitted here; the concrete configuration of the HTTP tool (embedded below
as http_tool_cfg) is taken from src/peargent/tools/http_tools.py. -/
structure ToolCfg where
  name : String
  timeout : Rat
  max_retries : Nat
  retry_delay : Rat
  retry_backoff : Bool
  on_error : OnErrorPolicy
deriving DecidableEq

/-- Modelled from the spec: the wait before the next attempt,
retry_delay * (2^attempt if retry_backoff else 1) seconds (spec §4.3 step 4). -/
def backoff_delay (cfg : ToolCfg) (attempt : Nat) : Rat :=
  cfg.retry_delay * (if cfg.retry_backoff then (2 : Rat) ^ attempt else 1)

/-- Modelled from the spec: the effective timeout of one Tool.run call
(spec §4.3 step 2). -/
def effective_timeout (cfg : ToolCfg) (timeout_override : Option Rat) : Rat :=
  timeout_override.getD cfg.timeout

/-- Modelled from the spec: the attempt loop of Tool.run, steps 3-4 of §4.3.
The underlying operation is modelled as a function from the attempt number to
its result; a Timeout failure or any failure raised by the operation is an
error value of the operation.  The second argument of the recursion is the
number of retries remaining (max_retries - attempt).  Returns the final
operation result, the number of invocations performed, and the ordered list
of waits inserted between attempts. -/
def tool_attempts (cfg : ToolCfg) (op : Nat → Except String String) :
    Nat → Nat → Except String String × Nat × List Rat
  | attempt, 0 =>
    match op attempt with
    | Except.ok v => (Except.ok v, 1, [])
    | Except.error e => (Except.error e, 1, [])
  | attempt, Nat.succ remaining =>
    match op attempt with
    | Except.ok v => (Except.ok v, 1, [])
    | Except.error e =>
      let _ := e
      let d := backoff_delay cfg attempt
      let r := tool_attempts cfg op (attempt + 1) remaining
      (r.1, r.2.1 + 1, d :: r.2.2)

/-- Final outcome of Tool.run: either a structured result
{success, data, error} handed back to the caller, or a propagated failure. -/
inductive ToolOutcome where
  | result (success : Bool) (data : Option String) (error : Option String)
  | raised (msg : String)
deriving DecidableEq

/-- Observable behavior of one Tool.run call: its outcome, how many times the
underlying operation was invoked, and the waits between attempts. -/
structure ToolRunResult where
  outcome : ToolOutcome
  invocations : Nat
  waits : List Rat
deriving DecidableEq

/-- Modelled from the spec: Tool.run steps 3-5 of §4.3.  The attempt counter
starts at 0 with max_retries retries remaining; after retries are exhausted,
on_error = return_error produces the structured failure result
{success: false, error: message} and on_error = raise propagates the
failure (spec §4.3 step 5). -/
def tool_run (cfg : ToolCfg) (op : Nat → Except String String) : ToolRunResult :=
  let r := tool_attempts cfg op 0 cfg.max_retries
  match r.1 with
  | Except.ok v =>
    { outcome := ToolOutcome.result true (some v) none
      invocations := r.2.1, waits := r.2.2 }
  | Except.error e =>
    match cfg.on_error with
    | OnErrorPolicy.return_error =>
      { outcome := ToolOutcome.result false none (some e)
        invocations := r.2.1, waits := r.2.2 }
    | OnErrorPolicy.raise =>
      { outcome := ToolOutcome.raised e
        invocations := r.2.1, waits := r.2.2 }

/-- The resilience configuration of HttpTool, embedded from
src/peargent/tools/http_tools.py lines 208-233 (HttpTool constructor). -/
def http_tool_cfg : ToolCfg :=
  { name := "http_request"
    timeout := 60
    max_retries := 2
    retry_delay := 1
    retry_backoff := true
    on_error := OnErrorPolicy.return_error }

/-- The scheme and hostname of a URL as produced by urllib.parse.urlparse,
which http_tools.py treats as an external parser.  hostname none models a URL
whose network location has no host (Python hostname None). -/
structure ParsedUrl where
  scheme : String
  hostname : Option String
deriving DecidableEq

/-- The address-classification flags of ipaddress.ip_address, which
http_tools.py reads on a successfully parsed IP literal
(src/peargent/tools/http_tools.py line 59). -/
structure IpInfo where
  is_private : Bool
  is_loopback : Bool
  is_link_local : Bool
  is_multicast : Bool
  is_reserved : Bool
deriving DecidableEq

/-- ASCII lowercase of one character, as Python str.lower acts on the ASCII
range. -/
def char_lower (c : Char) : Char :=
  if 65 ≤ c.toNat ∧ c.toNat ≤ 90 then Char.ofNat (c.toNat + 32) else c

/-- Lowercase of a string, modelling the hostname.lower() call of
_validate_url; urlparse hostnames are ASCII, so ASCII lowering suffices. -/
def str_lower (s : String) : String :=
  String.mk (s.data.map char_lower)

/-- Whether hay starts with needle, on character lists. -/
def char_starts (needle hay : List Char) : Bool :=
  match needle, hay with
  | [], _ => true
  | _ :: _, [] => false
  | c :: cs, d :: ds => c == d && char_starts cs ds

/-- Whether needle occurs in the list, at any position. -/
def char_contains_sub (needle : List Char) : List Char → Bool
  | [] => char_starts needle []
  | d :: rest => char_starts needle (d :: rest) || char_contains_sub needle rest

/-- Substring test, modelling the Python membership test on strings used at
src/peargent/tools/http_tools.py line 63. -/
def contains_sub (hay needle : String) : Bool :=
  char_contains_sub needle.data hay.data

/-- The check sequence of _validate_url, embedded from
src/peargent/tools/http_tools.py lines 33-60.  The ip_of argument models
ipaddress.ip_address: none where the Python call raises ValueError (the host
is not an IP literal), some info where it parses with the given
classification flags.  The source interpolates the parsed address object into
the final message; this embedding interpolates the host string it was parsed
from. -/
def validate_url_checks (parsed : ParsedUrl) (ip_of : String → Option IpInfo) :
    Except String Unit :=
  if ¬(parsed.scheme = "http" ∨ parsed.scheme = "https") then
    Except.error
      (String.append "Only HTTP and HTTPS URLs are allowed, got: " parsed.scheme)
  else
    match parsed.hostname with
    | none => Except.error "URL must have a valid hostname"
    | some host =>
      let hostname_lower := str_lower host
      if hostname_lower = "localhost" ∨ hostname_lower = "127.0.0.1" ∨
          hostname_lower = "::1" ∨ hostname_lower = "0.0.0.0" then
        Except.error "Access to localhost is not allowed"
      else
        match ip_of host with
        | none => Except.ok ()
        | some ip =>
          if ip.is_private ∨ ip.is_loopback ∨ ip.is_link_local ∨
              ip.is_multicast ∨ ip.is_reserved then
            Except.error
              (String.append
                "Access to private/internal IP addresses is not allowed: " host)
          else
            Except.ok ()

/-- The exception wrapper of _validate_url, embedded from
src/peargent/tools/http_tools.py lines 62-65: a ValueError whose text contains
"not allowed" is re-raised unchanged, every other failure is re-raised as
"Invalid URL: ...". -/
def validate_url (parsed : ParsedUrl) (ip_of : String → Option IpInfo) :
    Except String Unit :=
  match validate_url_checks parsed ip_of with
  | Except.ok _ => Except.ok ()
  | Except.error e =>
    if contains_sub e "not allowed" = true then Except.error e
    else Except.error (String.append "Invalid URL: " e)

/-- Which requests.request branch http_request reaches, embedded from
src/peargent/tools/http_tools.py lines 110-138. -/
inductive BodyKind where
  | with_json_body
  | with_data_body
  | plain
deriving DecidableEq

/-- The observable control flow of http_request up to the point a network
request is issued. -/
inductive HttpAction where
  | validation_error (msg : String)
  | body_conflict_error (msg : String)
  | request_issued (kind : BodyKind)
deriving DecidableEq

/-- The pre-network prefix of http_request, embedded from
src/peargent/tools/http_tools.py lines 100-138: validate the URL first, then
reject a call supplying both json_body and data_body, then issue the request
through the branch selected by the supplied bodies.  The source message for
the body conflict contains quoted parameter names; the quotes are dropped
here. -/
def http_request_action (url : ParsedUrl) (ip_of : String → Option IpInfo)
    (has_json_body has_data_body : Bool) : HttpAction :=
  match validate_url url ip_of with
  | Except.error e => HttpAction.validation_error e
  | Except.ok _ =>
    if has_json_body && has_data_body then
      HttpAction.body_conflict_error
        "Cannot provide both json_body and data_body. Choose one."
    else if has_json_body then HttpAction.request_issued BodyKind.with_json_body
    else if has_data_body then HttpAction.request_issued BodyKind.with_data_body
    else HttpAction.request_issued BodyKind.plain

/-- The IPv4 classification flags of ipaddress.IPv4Address, used to
instantiate the ip_of oracle on concrete dotted-quad literals: is_private
covers the CPython private-network list, is_loopback 127.0.0.0/8,
is_link_local 169.254.0.0/16, is_multicast 224.0.0.0/4 and is_reserved
240.0.0.0/4. -/
def ipv4_info (a b c d : Nat) : IpInfo :=
  { is_private :=
      decide (a = 0 ∨ a = 10 ∨ a = 127 ∨ (a = 169 ∧ b = 254) ∨
        (a = 172 ∧ 16 ≤ b ∧ b ≤ 31) ∨
        (a = 192 ∧ b = 0 ∧ c = 0 ∧ d ≤ 7) ∨
        (a = 192 ∧ b = 0 ∧ c = 0 ∧ (d = 170 ∨ d = 171)) ∨
        (a = 192 ∧ b = 0 ∧ c = 2) ∨ (a = 192 ∧ b = 168) ∨
        (a = 198 ∧ (b = 18 ∨ b = 19)) ∨ (a = 198 ∧ b = 51 ∧ c = 100) ∨
        (a = 203 ∧ b = 0 ∧ c = 113) ∨ 240 ≤ a)
    is_loopback := decide (a = 127)
    is_link_local := decide (a = 169 ∧ b = 254)
    is_multicast := decide (224 ≤ a ∧ a ≤ 239)
    is_reserved := decide (240 ≤ a) }

/-- The registry entries stored under a given agent name. -/
def key_entries (reg : List (String × Agent)) (n : String) :
    List (String × Agent) :=
  reg.filter (fun p => p.1 == n)

/-- The last agent of a given name in a supplied agent list. -/
def last_named (agents : List Agent) (n : String) : Option Agent :=
  (agents.filter (fun a => a.name == n)).getLast?

/-- A concrete agent used to instantiate the theorems on executable inputs. -/
def echo_agent (n : String) : Agent :=
  { name := n, run := fun inp _ => (String.append "echo: " inp, []) }

/-- A concrete agent with a fixed output, used to instantiate the theorems on
executable inputs. -/
def const_agent (n out : String) : Agent :=
  { name := n, run := fun _ _ => (out, []) }

end Peargent

namespace Peargent

theorem run_loop_history (registry : List (String × Agent)) (router : Router) :
    ∀ (fuel call_count : Nat) (last_result : Option LastResult)
      (current_input : String) (s : State),
    (run_loop registry router fuel call_count last_result current_input s).1.history
      = s.history ++ List.map to_assistant_message
          (run_loop registry router fuel call_count last_result current_input s).2.1 := by
  intro fuel
  induction fuel with
  | zero =>
    intro c l inp s
    simp [run_loop]
  | succ n ih =>
    intro c l inp s
    simp only [run_loop]
    cases h1 : (router s c l).next_agent_name with
    | none => simp
    | some name =>
      cases h2 : lookup_agent registry name with
      | none => simp [h2]
      | some ag =>
        simp only [h2, List.map_cons]
        rw [ih]
        simp

theorem run_loop_trace_length_le (registry : List (String × Agent))
    (router : Router) :
    ∀ (fuel call_count : Nat) (last_result : Option LastResult)
      (current_input : String) (s : State),
    (run_loop registry router fuel call_count last_result current_input s).2.1.length
      ≤ fuel := by
  intro fuel
  induction fuel with
  | zero =>
    intro c l inp s
    simp [run_loop]
  | succ n ih =>
    intro c l inp s
    simp only [run_loop]
    cases h1 : (router s c l).next_agent_name with
    | none => simp
    | some name =>
      cases h2 : lookup_agent registry name with
      | none => simp [h2]
      | some ag =>
        simp only [h2, List.length_cons]
        exact Nat.succ_le_succ (ih _ _ _ _)

theorem run_loop_valid_router (registry : List (String × Agent))
    (router : Router)
    (hvalid : ∀ (s : State) (c : Nat) (l : Option LastResult),
      ∃ nm ag, (router s c l).next_agent_name = some nm ∧
        lookup_agent registry nm = some ag) :
    ∀ (fuel call_count : Nat) (last_result : Option LastResult)
      (current_input : String) (s : State),
    (run_loop registry router fuel call_count last_result current_input s).2.1.length
      = fuel := by
  intro fuel
  induction fuel with
  | zero =>
    intro c l inp s
    simp [run_loop]
  | succ n ih =>
    intro c l inp s
    obtain ⟨nm, ag, hr, hl⟩ := hvalid s c l
    simp only [run_loop, hr, hl]
    simp only [List.length_cons]
    rw [ih]

theorem pool_run_trace_eq (agents : List Agent) (router : Router) (N : Nat)
    (s0 : State) (input : String) :
    (pool_run agents router N s0 input).trace
      = (run_loop (build_registry agents) router N 0 none input
          { s0 with history := s0.history ++
              [{ role := Role.user, content := input, agent := none }] }).2.1 := by
  unfold pool_run
  cases h : (run_loop (build_registry agents) router N 0 none input
      { s0 with history := s0.history ++
          [{ role := Role.user, content := input, agent := none }] }).2.2 with
  | none => simp [h]
  | some e => simp [h]

theorem pool_run_state_eq (agents : List Agent) (router : Router) (N : Nat)
    (s0 : State) (input : String) :
    (pool_run agents router N s0 input).state
      = (run_loop (build_registry agents) router N 0 none input
          { s0 with history := s0.history ++
              [{ role := Role.user, content := input, agent := none }] }).1 := by
  unfold pool_run
  cases h : (run_loop (build_registry agents) router N 0 none input
      { s0 with history := s0.history ++
          [{ role := Role.user, content := input, agent := none }] }).2.2 with
  | none => simp [h]
  | some e => simp [h]

theorem pool_run_history (agents : List Agent) (router : Router) (N : Nat)
    (s0 : State) (input : String) :
    (pool_run agents router N s0 input).state.history
      = s0.history ++
        ({ role := Role.user, content := input, agent := none } : Message)
          :: List.map to_assistant_message (pool_run agents router N s0 input).trace := by
  rw [pool_run_state_eq, pool_run_trace_eq, run_loop_history]
  simp

/-- C1: for every max_iter = N and every Router that always selects a valid
registered agent, a single Pool.run call executes at most N agent turns, and
exactly N turns, since such a Router never returns stop before the bound. -/
theorem pool_run_executes_exactly_max_iter (agents : List Agent)
    (router : Router) (N : Nat) (s0 : State) (input : String)
    (hvalid : ∀ (s : State) (c : Nat) (l : Option LastResult),
      ∃ nm ag, (router s c l).next_agent_name = some nm ∧
        lookup_agent (build_registry agents) nm = some ag) :
    agent_turns (pool_run agents router N s0 input) ≤ N ∧
    agent_turns (pool_run agents router N s0 input) = N := by
  constructor
  · rw [agent_turns, pool_run_trace_eq]
    exact run_loop_trace_length_le _ _ _ _ _ _ _
  · rw [agent_turns, pool_run_trace_eq]
    exact run_loop_valid_router _ _ hvalid _ _ _ _ _

theorem pool_run_executes_exactly_max_iter_witness :
    agent_turns (pool_run [echo_agent "a"]
      (fun _ _ _ => { next_agent_name := some "a" }) 3
      { history := [], kv := [] } "hi") ≤ 3 ∧
    agent_turns (pool_run [echo_agent "a"]
      (fun _ _ _ => { next_agent_name := some "a" }) 3
      { history := [], kv := [] } "hi") = 3 :=
  pool_run_executes_exactly_max_iter [echo_agent "a"]
    (fun _ _ _ => { next_agent_name := some "a" }) 3
    { history := [], kv := [] } "hi"
    (fun _ _ _ => ⟨"a", echo_agent "a", rfl, rfl⟩)

theorem getLast?_cons_or {α : Type} (a : α) (t : List α) :
    (a :: t).getLast? = (t.getLast?).or (some a) := by
  induction t generalizing a with
  | nil => rfl
  | cons b bs ih =>
    rw [List.getLast?_cons_cons, ih b]
    cases bs.getLast? <;> rfl

theorem run_loop_unknown_agent (registry : List (String × Agent))
    (router : Router) (name : String) :
    ∀ (fuel call_count : Nat) (last_result : Option LastResult)
      (current_input : String) (s : State),
    (run_loop registry router fuel call_count last_result
      current_input s).2.1.length < fuel →
    (router
        (run_loop registry router fuel call_count last_result current_input s).1
        (call_count + (run_loop registry router fuel call_count last_result
          current_input s).2.1.length)
        (((run_loop registry router fuel call_count last_result
          current_input s).2.1.getLast?).or last_result)).next_agent_name
      = some name →
    (run_loop registry router fuel call_count last_result current_input s).2.2
      = some (String.append "unknown agent: " name) := by
  intro fuel
  induction fuel with
  | zero =>
    intro c l inp s hlen hroute
    simp [run_loop] at hlen
  | succ n ih =>
    intro c l inp s hlen hroute
    cases h1 : (router s c l).next_agent_name with
    | none =>
      simp only [run_loop, h1] at hroute
      simp [h1] at hroute
    | some nm =>
      cases h2 : lookup_agent registry nm with
      | none =>
        simp only [run_loop, h1, h2] at hroute ⊢
        simp only [List.length_nil, Nat.add_zero, List.getLast?_nil,
          Option.none_or] at hroute
        rw [h1] at hroute
        injection hroute with he
        rw [he]
      | some ag =>
        simp only [run_loop, h1, h2] at hlen hroute ⊢
        set r := run_loop registry router n (c + 1)
          (some { agent := nm, output := (ag.run inp s).1,
                  tools_used := (ag.run inp s).2 })
          (ag.run inp s).1
          { history := s.history ++
              [to_assistant_message
                { agent := nm, output := (ag.run inp s).1,
                  tools_used := (ag.run inp s).2 }],
            kv := s.kv } with hr
        rw [List.length_cons] at hlen
        have hlen' := Nat.lt_of_succ_lt_succ hlen
        rw [getLast?_cons_or, Option.or_assoc, Option.or_some,
          List.length_cons] at hroute
        have harith : c + (r.2.1.length + 1) = (c + 1) + r.2.1.length := by
          omega
        rw [harith] at hroute
        rw [hr] at hlen' hroute ⊢
        exact ih _ _ _ _ hlen' hroute

/-- C3: in every Pool.run in which the Router returns an agent name absent
from the registry — at the live decision reached after any number of
completed agent turns, while the iteration bound is not yet exhausted — the
run fails fatally with a Routing error identifying the unknown name, and the
state history still contains the user Message appended before the failure. -/
theorem pool_run_unknown_agent_fails (agents : List Agent) (router : Router)
    (N : Nat) (s0 : State) (input : String) (name : String)
    (hk : (pool_run agents router N s0 input).trace.length < N)
    (hroute : (router (pool_run agents router N s0 input).state
        (pool_run agents router N s0 input).trace.length
        (pool_run agents router N s0 input).trace.getLast?).next_agent_name
      = some name)
    (_hunknown : lookup_agent (build_registry agents) name = none) :
    (pool_run agents router N s0 input).result
      = Except.error (String.append "unknown agent: " name) ∧
    ({ role := Role.user, content := input, agent := none } : Message)
      ∈ (pool_run agents router N s0 input).state.history := by
  have htr := pool_run_trace_eq agents router N s0 input
  have hst := pool_run_state_eq agents router N s0 input
  rw [htr] at hk
  rw [hst, htr] at hroute
  have hroute2 : (router
      (run_loop (build_registry agents) router N 0 none input
        { s0 with history := s0.history ++
            [{ role := Role.user, content := input, agent := none }] }).1
      (0 + (run_loop (build_registry agents) router N 0 none input
        { s0 with history := s0.history ++
            [{ role := Role.user, content := input, agent := none }] }).2.1.length)
      (((run_loop (build_registry agents) router N 0 none input
        { s0 with history := s0.history ++
            [{ role := Role.user, content := input, agent := none }] }).2.1.getLast?).or
        none)).next_agent_name = some name := by
    rw [Nat.zero_add, Option.or_none]
    exact hroute
  have herr := run_loop_unknown_agent (build_registry agents) router name
    N 0 none input
    { s0 with history := s0.history ++
        [{ role := Role.user, content := input, agent := none }] }
    hk hroute2
  constructor
  · unfold pool_run
    cases h : (run_loop (build_registry agents) router N 0 none input
        { s0 with history := s0.history ++
            [{ role := Role.user, content := input, agent := none }] }).2.2 with
    | none =>
      rw [herr] at h
      cases h
    | some e =>
      simp only [h]
      rw [herr] at h
      injection h with he
      rw [← he]
  · rw [pool_run_history]
    simp

theorem pool_run_unknown_agent_fails_witness :
    (pool_run [echo_agent "a"]
      (fun _ c _ => if c = 0 then { next_agent_name := some "a" }
        else { next_agent_name := some "ghost" })
      3 { history := [], kv := [] } "hi").result
      = Except.error (String.append "unknown agent: " "ghost") ∧
    ({ role := Role.user, content := "hi", agent := none } : Message)
      ∈ (pool_run [echo_agent "a"]
          (fun _ c _ => if c = 0 then { next_agent_name := some "a" }
            else { next_agent_name := some "ghost" })
          3 { history := [], kv := [] } "hi").state.history :=
  pool_run_unknown_agent_fails [echo_agent "a"]
    (fun _ c _ => if c = 0 then { next_agent_name := some "a" }
      else { next_agent_name := some "ghost" })
    3 { history := [], kv := [] } "hi" "ghost"
    (by decide) rfl rfl

/-- C4: whenever the loop body of Pool.run never executes, because max_iter
is 0 or the Router returns stop on the very first decision, run returns the
empty string and the history gains exactly the one user Message and no
assistant Message. -/
theorem pool_run_no_turns_returns_empty (agents : List Agent) (router : Router)
    (N : Nat) (s0 : State) (input : String)
    (h : N = 0 ∨ (router
        { s0 with history := s0.history ++
            [{ role := Role.user, content := input, agent := none }] }
        0 none).next_agent_name = none) :
    (pool_run agents router N s0 input).result = Except.ok "" ∧
    (pool_run agents router N s0 input).state.history
      = s0.history ++ [{ role := Role.user, content := input, agent := none }] ∧
    (pool_run agents router N s0 input).trace = [] := by
  rcases h with h | h
  · subst h
    refine ⟨?_, ?_, ?_⟩ <;> simp [pool_run, run_loop]
  · cases N with
    | zero => refine ⟨?_, ?_, ?_⟩ <;> simp [pool_run, run_loop]
    | succ n => refine ⟨?_, ?_, ?_⟩ <;> simp [pool_run, run_loop, h]

theorem pool_run_no_turns_returns_empty_witness :
    (pool_run [echo_agent "a"] default_router 4
      { history := [], kv := [] } "hi").result = Except.ok "" ∧
    (pool_run [echo_agent "a"] default_router 4
      { history := [], kv := [] } "hi").state.history
      = ({ history := [], kv := [] } : State).history ++
        [{ role := Role.user, content := "hi", agent := none }] ∧
    (pool_run [echo_agent "a"] default_router 4
      { history := [], kv := [] } "hi").trace = [] :=
  pool_run_no_turns_returns_empty [echo_agent "a"] default_router 4
    { history := [], kv := [] } "hi" (Or.inr rfl)

/-- C5: a Pool constructed without an explicit router gets the default
router, which returns stop on every decision, for every state, call count and
last result; such a Pool.run executes zero agent turns and returns the empty
string. -/
theorem unconfigured_pool_is_noop (agents : List Agent) (N : Nat) (s0 : State)
    (input : String) (s : State) (c : Nat) (l : Option LastResult) :
    (create_pool_router none s c l).next_agent_name = none ∧
    agent_turns (pool_run agents (create_pool_router none) N s0 input) = 0 ∧
    (pool_run agents (create_pool_router none) N s0 input).result
      = Except.ok "" := by
  refine ⟨rfl, ?_, ?_⟩ <;>
    cases N <;>
      simp [pool_run, run_loop, create_pool_router, default_router, agent_turns]

/-- C7: on every non-empty ordered name list, the round-robin router returns
names[call_count mod len(names)] at every call count and never returns stop on
its own; on the list [A, B, C] it returns A, B, C, A, B, C at call counts
0 through 5. -/
theorem round_robin_router_cycles (names : List String) (s : State) (c : Nat)
    (l : Option LastResult) (h : names ≠ []) :
    (∃ hlt : c % names.length < names.length,
      (round_robin_router names s c l).next_agent_name
        = some (names.get ⟨c % names.length, hlt⟩)) ∧
    (round_robin_router names s c l).next_agent_name ≠ none ∧
    List.map
      (fun k => (round_robin_router ["A", "B", "C"] s k l).next_agent_name)
      (List.range 6)
      = [some "A", some "B", some "C", some "A", some "B", some "C"] := by
  have hpos : 0 < names.length := List.length_pos.mpr h
  have hlt : c % names.length < names.length := Nat.mod_lt c hpos
  refine ⟨⟨hlt, ?_⟩, ?_, ?_⟩
  · simp [round_robin_router, List.get?_eq_get hlt]
  · simp only [round_robin_router, List.get?_eq_get hlt]
    simp
  · rfl

theorem round_robin_router_cycles_witness :
    (∃ hlt : 4 % (["A", "B", "C"] : List String).length
        < (["A", "B", "C"] : List String).length,
      (round_robin_router ["A", "B", "C"] { history := [], kv := [] } 4
        none).next_agent_name
        = some ((["A", "B", "C"] : List String).get
            ⟨4 % (["A", "B", "C"] : List String).length, hlt⟩)) ∧
    (round_robin_router ["A", "B", "C"] { history := [], kv := [] } 4
      none).next_agent_name ≠ none ∧
    List.map
      (fun k => (round_robin_router ["A", "B", "C"]
        { history := [], kv := [] } k none).next_agent_name)
      (List.range 6)
      = [some "A", some "B", some "C", some "A", some "B", some "C"] :=
  round_robin_router_cycles ["A", "B", "C"] { history := [], kv := [] } 4 none
    (by simp)

/-- C8: across two successive Pool.run calls on the same Pool, the history
strictly grows and every Message present before the second call is unchanged
at its position afterwards. -/
theorem history_accumulates_across_runs (agents : List Agent) (router : Router)
    (N1 N2 : Nat) (s0 : State) (in1 in2 : String) (o1 o2 : RunOutcome)
    (h1 : o1 = pool_run agents router N1 s0 in1)
    (h2 : o2 = pool_run agents router N2 o1.state in2) :
    o1.state.history.length < o2.state.history.length ∧
    ∀ i, i < o1.state.history.length →
      o2.state.history[i]? = o1.state.history[i]? := by
  subst h2
  have hh := pool_run_history agents router N2
    (pool_run agents router N1 s0 in1).state in2
  subst h1
  rw [hh]
  constructor
  · simp
  · intro i hi
    rw [List.getElem?_append_left hi]

theorem history_accumulates_across_runs_witness :
    (pool_run [echo_agent "a"] default_router 1
      { history := [], kv := [] } "one").state.history.length <
      (pool_run [echo_agent "a"] default_router 1
        (pool_run [echo_agent "a"] default_router 1
          { history := [], kv := [] } "one").state "two").state.history.length ∧
    ∀ i, i < (pool_run [echo_agent "a"] default_router 1
        { history := [], kv := [] } "one").state.history.length →
      (pool_run [echo_agent "a"] default_router 1
        (pool_run [echo_agent "a"] default_router 1
          { history := [], kv := [] } "one").state "two").state.history[i]?
        = (pool_run [echo_agent "a"] default_router 1
            { history := [], kv := [] } "one").state.history[i]? :=
  history_accumulates_across_runs [echo_agent "a"] default_router 1 1
    { history := [], kv := [] } "one" "two"
    (pool_run [echo_agent "a"] default_router 1
      { history := [], kv := [] } "one")
    (pool_run [echo_agent "a"] default_router 1
      (pool_run [echo_agent "a"] default_router 1
        { history := [], kv := [] } "one").state "two")
    rfl rfl

/-- C9: within a single Pool.run call, Messages are appended in strict call
order: the user Message first, carrying no agent attribution, then exactly
one assistant Message per completed agent turn, in execution order, each
carrying the executing agent's name. -/
theorem pool_run_appends_in_call_order (agents : List Agent) (router : Router)
    (N : Nat) (s0 : State) (input : String) :
    (pool_run agents router N s0 input).state.history
      = s0.history ++
        ({ role := Role.user, content := input, agent := none } : Message)
          :: List.map to_assistant_message
              (pool_run agents router N s0 input).trace :=
  pool_run_history agents router N s0 input

theorem replace_keeps_keys (a : Agent) (n : String) :
    ((fun p : String × Agent => p.1 == n) ∘
      (fun p : String × Agent => if p.1 == a.name then (a.name, a) else p))
      = fun p : String × Agent => p.1 == n := by
  funext p
  simp only [Function.comp_apply]
  by_cases hp : (p.1 == a.name) = true
  · have he : p.1 = a.name := eq_of_beq hp
    rw [if_pos hp]
    simp [he]
  · rw [if_neg hp]

theorem key_entries_pos_of_any (reg : List (String × Agent)) (n : String)
    (h : reg.any (fun p => p.1 == n) = true) :
    0 < (key_entries reg n).length := by
  obtain ⟨p0, hp0, hkey⟩ := List.any_eq_true.mp h
  have hm : p0 ∈ key_entries reg n := List.mem_filter.mpr ⟨hp0, hkey⟩
  exact List.length_pos.mpr (List.ne_nil_of_mem hm)

theorem key_entries_nil_of_not_any (reg : List (String × Agent)) (n : String)
    (h : ¬ reg.any (fun p => p.1 == n) = true) :
    key_entries reg n = [] := by
  rw [key_entries, List.filter_eq_nil_iff]
  intro p hp
  intro hkey
  exact h (List.any_eq_true.mpr ⟨p, hp, hkey⟩)

theorem insert_agent_key_entries_length (reg : List (String × Agent))
    (a : Agent) (n : String) (hu : (key_entries reg a.name).length ≤ 1) :
    (key_entries (insert_agent reg a) n).length
      = if a.name = n then 1 else (key_entries reg n).length := by
  unfold insert_agent
  by_cases hmem : reg.any (fun p => p.1 == a.name) = true
  · rw [if_pos hmem]
    have hmap : key_entries
        (reg.map (fun p => if p.1 == a.name then (a.name, a) else p)) n
        = (key_entries reg n).map
            (fun p => if p.1 == a.name then (a.name, a) else p) := by
      rw [key_entries, List.filter_map, replace_keeps_keys]
      rfl
    rw [hmap, List.length_map]
    by_cases han : a.name = n
    · subst han
      rw [if_pos rfl]
      exact Nat.le_antisymm hu (key_entries_pos_of_any reg a.name hmem)
    · rw [if_neg han]
  · rw [if_neg hmem]
    rw [key_entries, List.filter_append]
    by_cases han : a.name = n
    · subst han
      have hnil : key_entries reg a.name = [] :=
        key_entries_nil_of_not_any reg a.name hmem
      rw [key_entries] at hnil
      simp [hnil]
    · have hb : ((a.name : String) == n) = false := by
        simp [han]
      simp [key_entries, hb, han]

theorem insert_agent_lookup (reg : List (String × Agent)) (a : Agent)
    (n : String) :
    lookup_agent (insert_agent reg a) n
      = if a.name = n then some a else lookup_agent reg n := by
  unfold insert_agent lookup_agent
  by_cases hmem : reg.any (fun p => p.1 == a.name) = true
  · rw [if_pos hmem]
    rw [List.find?_map, replace_keeps_keys]
    by_cases han : a.name = n
    · subst han
      rw [if_pos rfl]
      have hex := List.any_eq_true.mp hmem
      have hsome : (reg.find? (fun p => p.1 == a.name)).isSome :=
        List.find?_isSome.mpr hex
      obtain ⟨p0, hp0⟩ := Option.isSome_iff_exists.mp hsome
      rw [hp0]
      have hkey := List.find?_some hp0
      simp only [] at hkey
      simp [eq_of_beq hkey]
    · rw [if_neg han]
      cases hf : reg.find? (fun p => p.1 == n) with
      | none => rfl
      | some p0 =>
        have hkey := List.find?_some hf
        simp only [] at hkey
        have hne : (p0.1 == a.name) = false := by
          have hpn : p0.1 = n := eq_of_beq hkey
          rw [hpn]
          simp only [beq_eq_false_iff_ne, ne_eq]
          intro hc
          exact han hc.symm
        have hne2 : ¬ p0.1 = a.name := by simpa using hne
        simp [hne2]
  · rw [if_neg hmem]
    rw [List.find?_append]
    by_cases han : a.name = n
    · subst han
      have hnone : reg.find? (fun p => p.1 == a.name) = none := by
        rw [List.find?_eq_none]
        intro p hp hkey
        exact hmem (List.any_eq_true.mpr ⟨p, hp, hkey⟩)
      simp [hnone]
    · have hb : ((a.name : String) == n) = false := by
        simp [han]
      cases hf : reg.find? (fun p => p.1 == n) <;> simp [hf, hb, han]

theorem insert_agent_unique_keys (reg : List (String × Agent)) (a : Agent)
    (hu : ∀ m, (key_entries reg m).length ≤ 1) :
    ∀ m, (key_entries (insert_agent reg a) m).length ≤ 1 := by
  intro m
  rw [insert_agent_key_entries_length reg a m (hu a.name)]
  by_cases ham : a.name = m
  · simp [ham]
  · simp only [ham, if_false]
    exact hu m

theorem build_registry_count_aux (agents : List Agent) :
    ∀ reg : List (String × Agent), (∀ m, (key_entries reg m).length ≤ 1) →
    ∀ n : String,
    (key_entries (agents.foldl insert_agent reg) n).length
      = if agents.any (fun a => a.name == n) = true then 1
        else (key_entries reg n).length := by
  induction agents with
  | nil =>
    intro reg hu n
    simp
  | cons a rest ih =>
    intro reg hu n
    rw [List.foldl_cons,
      ih (insert_agent reg a) (insert_agent_unique_keys reg a hu) n,
      insert_agent_key_entries_length reg a n (hu a.name)]
    by_cases hr : rest.any (fun x => x.name == n) = true
    · have hcons : (a :: rest).any (fun x => x.name == n) = true := by
        simp [List.any_cons, hr]
      simp [hr, hcons]
    · by_cases han : a.name = n
      · have hcons : (a :: rest).any (fun x => x.name == n) = true := by
          simp [List.any_cons, han]
        simp [hr, hcons, han]
      · have hcons : ¬ (a :: rest).any (fun x => x.name == n) = true := by
          simp only [List.any_cons, Bool.or_eq_true]
          intro hc
          rcases hc with hc | hc
          · exact han (eq_of_beq hc)
          · exact hr hc
        simp [hr, hcons, han]

theorem build_registry_lookup_aux (agents : List Agent) :
    ∀ reg : List (String × Agent), ∀ n : String,
    lookup_agent (agents.foldl insert_agent reg) n
      = if agents.any (fun a => a.name == n) = true then last_named agents n
        else lookup_agent reg n := by
  induction agents with
  | nil =>
    intro reg n
    simp [last_named]
  | cons a rest ih =>
    intro reg n
    rw [List.foldl_cons, ih (insert_agent reg a) n, insert_agent_lookup reg a n]
    by_cases hr : rest.any (fun x => x.name == n) = true
    · have hcons : (a :: rest).any (fun x => x.name == n) = true := by
        simp [List.any_cons, hr]
      have hfil : rest.filter (fun x => x.name == n) ≠ [] := by
        intro hc
        have hall := List.filter_eq_nil_iff.mp hc
        obtain ⟨x, hx, hkey⟩ := List.any_eq_true.mp hr
        exact hall x hx hkey
      have hlast : last_named (a :: rest) n = last_named rest n := by
        unfold last_named
        rw [List.filter_cons]
        by_cases ha : (a.name == n) = true
        · simp only [ha, if_true]
          cases hq : rest.filter (fun x => x.name == n) with
          | nil => exact absurd hq hfil
          | cons b bs => rw [List.getLast?_cons_cons]
        · simp [ha]
      simp [hr, hcons, hlast]
    · by_cases han : a.name = n
      · have hcons : (a :: rest).any (fun x => x.name == n) = true := by
          simp [List.any_cons, han]
        have hfil : rest.filter (fun x => x.name == n) = [] := by
          rw [List.filter_eq_nil_iff]
          intro x hx hkey
          exact hr (List.any_eq_true.mpr ⟨x, hx, hkey⟩)
        have hlast : last_named (a :: rest) n = some a := by
          unfold last_named
          rw [List.filter_cons]
          simp [han, hfil]
        simp [hr, hcons, hlast, han]
      · have hcons : ¬ (a :: rest).any (fun x => x.name == n) = true := by
          simp only [List.any_cons, Bool.or_eq_true]
          intro hc
          rcases hc with hc | hc
          · exact han (eq_of_beq hc)
          · exact hr hc
        simp [hr, hcons, han]

/-- C6: when the agent list supplied at Pool construction contains two or
more agents with the same name, the registry contains exactly one entry for
that name, bound to the last-supplied agent of that name. -/
theorem duplicate_agent_names_last_wins (agents : List Agent) (n : String)
    (h : 2 ≤ (agents.filter (fun a => a.name == n)).length) :
    (key_entries (build_registry agents) n).length = 1 ∧
    lookup_agent (build_registry agents) n = last_named agents n := by
  have hany : agents.any (fun a => a.name == n) = true := by
    have hne : agents.filter (fun a => a.name == n) ≠ [] := by
      intro hc
      rw [hc] at h
      simp at h
    obtain ⟨x, hx⟩ := List.exists_mem_of_ne_nil _ hne
    have hmf := List.mem_filter.mp hx
    exact List.any_eq_true.mpr ⟨x, hmf.1, hmf.2⟩
  constructor
  · rw [build_registry,
      build_registry_count_aux agents [] (by simp [key_entries]) n]
    simp [hany]
  · rw [build_registry, build_registry_lookup_aux agents [] n]
    simp [hany]

theorem duplicate_agent_names_last_wins_witness :
    (key_entries
      (build_registry [const_agent "dup" "one", const_agent "dup" "two"])
      "dup").length = 1 ∧
    lookup_agent
      (build_registry [const_agent "dup" "one", const_agent "dup" "two"]) "dup"
      = last_named [const_agent "dup" "one", const_agent "dup" "two"] "dup" :=
  duplicate_agent_names_last_wins
    [const_agent "dup" "one", const_agent "dup" "two"] "dup" (by decide)

/-- C2: a Tool configured with max_retries = 2, retry_delay = 1, and
retry_backoff = true whose underlying operation always fails invokes the
operation exactly 3 times (one initial attempt plus two retries), waiting
retry_delay * 2 ^ attempt seconds between attempts, and the final outcome is
governed by on_error: return_error yields the structured
{success: false, error: ...} result, raise propagates the failure to the
caller. -/
theorem tool_retry_semantics (cfg : ToolCfg) (op : Nat → Except String String)
    (hmr : cfg.max_retries = 2) (_hrd : cfg.retry_delay = 1)
    (hrb : cfg.retry_backoff = true)
    (hfail : ∀ k, ∃ e, op k = Except.error e) :
    (tool_run cfg op).invocations = 3 ∧
    (tool_run cfg op).waits
      = [cfg.retry_delay * (2 : Rat) ^ (0 : Nat),
         cfg.retry_delay * (2 : Rat) ^ (1 : Nat)] ∧
    ∃ e, op 2 = Except.error e ∧
      (cfg.on_error = OnErrorPolicy.return_error →
        (tool_run cfg op).outcome = ToolOutcome.result false none (some e)) ∧
      (cfg.on_error = OnErrorPolicy.raise →
        (tool_run cfg op).outcome = ToolOutcome.raised e) := by
  obtain ⟨e0, h0⟩ := hfail 0
  obtain ⟨e1, h1⟩ := hfail 1
  obtain ⟨e2, h2⟩ := hfail 2
  have hatt : tool_attempts cfg op 0 cfg.max_retries
      = (Except.error e2, 3, [backoff_delay cfg 0, backoff_delay cfg 1]) := by
    rw [hmr]
    simp [tool_attempts, h0, h1, h2]
  refine ⟨?_, ?_, e2, h2, ?_, ?_⟩ <;> cases hoe : cfg.on_error <;>
    simp [tool_run, hatt, hoe, backoff_delay, hrb]

theorem tool_retry_semantics_witness :
    ((tool_run http_tool_cfg (fun _ => Except.error "boom")).invocations = 3 ∧
      (tool_run http_tool_cfg (fun _ => Except.error "boom")).waits
        = [http_tool_cfg.retry_delay * (2 : Rat) ^ (0 : Nat),
           http_tool_cfg.retry_delay * (2 : Rat) ^ (1 : Nat)] ∧
      ∃ e, (fun _ : Nat => Except.error (ε := String) (α := String) "boom") 2
          = Except.error e ∧
        (http_tool_cfg.on_error = OnErrorPolicy.return_error →
          (tool_run http_tool_cfg (fun _ => Except.error "boom")).outcome
            = ToolOutcome.result false none (some e)) ∧
        (http_tool_cfg.on_error = OnErrorPolicy.raise →
          (tool_run http_tool_cfg (fun _ => Except.error "boom")).outcome
            = ToolOutcome.raised e)) ∧
    ((tool_run { http_tool_cfg with on_error := OnErrorPolicy.raise }
        (fun _ => Except.error "boom")).invocations = 3 ∧
      (tool_run { http_tool_cfg with on_error := OnErrorPolicy.raise }
        (fun _ => Except.error "boom")).waits
        = [({ http_tool_cfg with
              on_error := OnErrorPolicy.raise } : ToolCfg).retry_delay
            * (2 : Rat) ^ (0 : Nat),
           ({ http_tool_cfg with
              on_error := OnErrorPolicy.raise } : ToolCfg).retry_delay
            * (2 : Rat) ^ (1 : Nat)] ∧
      ∃ e, (fun _ : Nat => Except.error (ε := String) (α := String) "boom") 2
          = Except.error e ∧
        (({ http_tool_cfg with
            on_error := OnErrorPolicy.raise } : ToolCfg).on_error
            = OnErrorPolicy.return_error →
          (tool_run { http_tool_cfg with on_error := OnErrorPolicy.raise }
            (fun _ => Except.error "boom")).outcome
            = ToolOutcome.result false none (some e)) ∧
        (({ http_tool_cfg with
            on_error := OnErrorPolicy.raise } : ToolCfg).on_error
            = OnErrorPolicy.raise →
          (tool_run { http_tool_cfg with on_error := OnErrorPolicy.raise }
            (fun _ => Except.error "boom")).outcome
            = ToolOutcome.raised e)) :=
  ⟨tool_retry_semantics http_tool_cfg (fun _ => Except.error "boom")
      rfl rfl rfl (fun _ => ⟨"boom", rfl⟩),
    tool_retry_semantics { http_tool_cfg with on_error := OnErrorPolicy.raise }
      (fun _ => Except.error "boom") rfl rfl rfl (fun _ => ⟨"boom", rfl⟩)⟩

theorem validate_url_checks_ok (parsed : ParsedUrl)
    (ip_of : String → Option IpInfo)
    (h : validate_url_checks parsed ip_of = Except.ok ()) :
    (parsed.scheme = "http" ∨ parsed.scheme = "https") ∧
    ∃ host, parsed.hostname = some host ∧
      ¬(str_lower host = "localhost" ∨ str_lower host = "127.0.0.1" ∨
        str_lower host = "::1" ∨ str_lower host = "0.0.0.0") ∧
      (ip_of host = none ∨ ∃ info, ip_of host = some info ∧
        info.is_private = false ∧ info.is_loopback = false ∧
        info.is_link_local = false ∧ info.is_multicast = false ∧
        info.is_reserved = false) := by
  unfold validate_url_checks at h
  by_cases hs : ¬(parsed.scheme = "http" ∨ parsed.scheme = "https")
  · rw [if_pos hs] at h
    cases h
  · rw [if_neg hs] at h
    cases hh : parsed.hostname with
    | none =>
      rw [hh] at h
      cases h
    | some host =>
      rw [hh] at h
      simp only [] at h
      by_cases hl : (str_lower host = "localhost" ∨
          str_lower host = "127.0.0.1" ∨
          str_lower host = "::1" ∨ str_lower host = "0.0.0.0")
      · rw [if_pos hl] at h
        cases h
      · rw [if_neg hl] at h
        refine ⟨not_not.mp hs, host, rfl, hl, ?_⟩
        cases hip : ip_of host with
        | none => exact Or.inl rfl
        | some info =>
          rw [hip] at h
          simp only [] at h
          by_cases hflag : (info.is_private = true ∨ info.is_loopback = true ∨
              info.is_link_local = true ∨ info.is_multicast = true ∨
              info.is_reserved = true)
          · rw [if_pos hflag] at h
            cases h
          · rw [if_neg hflag] at h
            simp only [not_or, Bool.not_eq_true] at hflag
            exact Or.inr ⟨info, rfl, hflag.1, hflag.2.1, hflag.2.2.1,
              hflag.2.2.2.1, hflag.2.2.2.2⟩

theorem validate_url_ok (parsed : ParsedUrl) (ip_of : String → Option IpInfo)
    (h : validate_url parsed ip_of = Except.ok ()) :
    validate_url_checks parsed ip_of = Except.ok () := by
  unfold validate_url at h
  cases hc : validate_url_checks parsed ip_of with
  | ok u =>
    cases u
    rfl
  | error e =>
    rw [hc] at h
    simp only [] at h
    by_cases hsub : contains_sub e "not allowed" = true
    · rw [if_pos hsub] at h
      cases h
    · rw [if_neg hsub] at h
      cases h

/-- C10: for every URL whose scheme is not http or https, or that lacks a
hostname, or whose host is localhost or a listed loopback address
(localhost, 127.0.0.1, ::1, 0.0.0.0), or whose host is an IP literal
classified as private, loopback, link-local, multicast or reserved,
http_request raises ValueError from _validate_url before performing any
network request: no request-issuing branch is reachable for such inputs. -/
theorem http_request_rejects_unsafe_urls (url : ParsedUrl)
    (ip_of : String → Option IpInfo) (has_json_body has_data_body : Bool)
    (h : (url.scheme ≠ "http" ∧ url.scheme ≠ "https") ∨
      url.hostname = none ∨
      (∃ host, url.hostname = some host ∧
        (str_lower host = "localhost" ∨ str_lower host = "127.0.0.1" ∨
          str_lower host = "::1" ∨ str_lower host = "0.0.0.0")) ∨
      (∃ host info, url.hostname = some host ∧ ip_of host = some info ∧
        (info.is_private = true ∨ info.is_loopback = true ∨
          info.is_link_local = true ∨ info.is_multicast = true ∨
          info.is_reserved = true))) :
    ∃ msg, http_request_action url ip_of has_json_body has_data_body
      = HttpAction.validation_error msg := by
  unfold http_request_action
  cases hv : validate_url url ip_of with
  | error e => exact ⟨e, rfl⟩
  | ok u =>
    cases u
    exfalso
    obtain ⟨hscheme, host, hhost, hlocal, hip⟩ :=
      validate_url_checks_ok url ip_of (validate_url_ok url ip_of hv)
    rcases h with h | h | h | h
    · rcases hscheme with hs | hs
      · exact h.1 hs
      · exact h.2 hs
    · rw [hhost] at h
      cases h
    · obtain ⟨host2, hh2, hl2⟩ := h
      rw [hhost] at hh2
      injection hh2 with he
      subst he
      exact hlocal hl2
    · obtain ⟨host2, info, hh2, hip2, hflags⟩ := h
      rw [hhost] at hh2
      injection hh2 with he
      subst he
      rcases hip with hnone | ⟨info2, hsome, f1, f2, f3, f4, f5⟩
      · rw [hip2] at hnone
        cases hnone
      · rw [hip2] at hsome
        injection hsome with hi
        subst hi
        rcases hflags with f | f | f | f | f
        · rw [f1] at f
          cases f
        · rw [f2] at f
          cases f
        · rw [f3] at f
          cases f
        · rw [f4] at f
          cases f
        · rw [f5] at f
          cases f

theorem http_request_rejects_unsafe_urls_witness :
    ∃ msg, http_request_action
      { scheme := "http", hostname := some "192.168.1.1" }
      (fun h => if h == "192.168.1.1" then some (ipv4_info 192 168 1 1)
        else none)
      false false
      = HttpAction.validation_error msg :=
  http_request_rejects_unsafe_urls
    { scheme := "http", hostname := some "192.168.1.1" }
    (fun h => if h == "192.168.1.1" then some (ipv4_info 192 168 1 1)
      else none)
    false false
    (Or.inr (Or.inr (Or.inr ⟨"192.168.1.1", ipv4_info 192 168 1 1, rfl,
      by simp [ipv4_info], Or.inl (by simp [ipv4_info])⟩)))

end Peargent
